import Mathlib

/-!
Verification of the LeadGen ingestion/scoring pipeline.

Shallow embedding conventions, used throughout:
* Python floats are modelled as exact rationals (`ℚ`); Python `round(x, 2)`
  and the `:.1f` format specifier round half-to-even, modelled by
  `roundHalfEven` below.
* Python strings are Lean `String`s; `in` (substring test) is `inStr`,
  `str.lower()` / `str.upper()` are the ASCII case maps (all strings the
  claims exercise are ASCII).
* `datetime.now()` values are passed in as parameters (`now` for the
  ISO-format creation stamp; an activity's age enters as the integer day
  difference that `(current_time - activity_date).days` produces).
* BeautifulSoup / urllib are third-party libraries: the element trees they
  return are modelled as plain records of the already-located pieces of
  text (link text, resolved description, resolved absolute URL), and the
  extractor logic applied to those pieces is translated from the source.
-/

namespace LeadGen

set_option maxRecDepth 100000

/-- Python's `needle in hay` on lists of characters: true iff `needle`
occurs as a contiguous sublist (the empty needle always matches). -/
def infixOfChars : List Char → List Char → Bool
  | n, [] => n.isEmpty
  | n, c :: cs => n.isPrefixOf (c :: cs) || infixOfChars n cs

/-- Python's `needle in hay` on strings. -/
def inStr (needle hay : String) : Bool := infixOfChars needle.data hay.data

/-- Python's `str.lower()` (ASCII). -/
def lowerStr (s : String) : String := s.toLower

/- ## Lead scorer (src/services/lead_scorer.py) -/

/-- LeadScorer.scoring_factors: the factor weights, in insertion order. -/
def scoring_factors : List (String × ℚ) :=
  [("ai_readiness", 0.30), ("academic_partnerships", 0.15),
   ("budget_potential", 0.20), ("tech_initiatives", 0.15),
   ("engagement_signals", 0.15), ("accessibility", 0.05)]

/-- LeadScorer.ai_keywords with importance weights. -/
def ai_keywords : List (String × ℚ) :=
  [("artificial intelligence", 1.0), ("machine learning", 1.0),
   ("ai transformation", 1.0), ("data science", 0.8),
   ("digital transformation", 0.7), ("automation", 0.6),
   ("analytics", 0.5), ("modernization", 0.4), ("innovation", 0.3)]

/-- LeadScorer.budget_indicators with weights. -/
def budget_indicators : List (String × ℚ) :=
  [("enterprise", 1.0), ("multi-year", 0.9), ("million", 0.8),
   ("phase", 0.6), ("pilot", 0.4)]

/-- LeadScorer.academic_indicators with weights. -/
def academic_indicators : List (String × ℚ) :=
  [("university", 1.0), ("research partnership", 1.0),
   ("academic collaboration", 1.0), ("research institute", 0.9),
   ("college", 0.9), ("academic", 0.8), ("research center", 0.8),
   ("laboratory", 0.7), ("fellowship", 0.6), ("internship", 0.5),
   ("student program", 0.5)]

/-- LeadScorer.top_universities. -/
def top_universities : List String :=
  ["mit", "stanford", "harvard", "carnegie mellon", "berkeley",
   "georgia tech", "caltech", "princeton", "illinois", "michigan",
   "purdue", "texas", "ucla", "ucsd", "columbia", "cornell",
   "washington", "maryland", "penn state", "virginia tech", "johns hopkins"]

/-- LeadScorer.special_universities: name, bonus weight, relationship keywords. -/
def special_universities : List (String × ℚ × List String) :=
  [("johns hopkins", 1.0,
    ["existing partnership", "ongoing collaboration", "current contract",
     "active project", "jhu partnership", "apl", "applied physics laboratory"])]

/-- The `contact_info` dictionary of a lead (an absent key is the empty
string; the empty dict behaves exactly like all-empty fields). -/
structure ContactInfo where
  email : String := ""
  phone : String := ""
  title : String := ""
deriving DecidableEq

/-- The `lead_data` dictionary `score_lead` receives.  A recent activity is
the optional integer day difference `(current_time - activity['date']).days`;
an activity without a `date` key is `none`.  The empty dict is `{}`. -/
structure LeadData where
  description : String := ""
  budget_info : String := ""
  tech_initiatives : List String := []
  recent_activities : List (Option ℤ) := []
  contact_info : ContactInfo := {}
  partnerships : List String := []
deriving DecidableEq

/-- LeadScorer._score_ai_readiness. -/
def score_ai_readiness (description : String) : ℚ :=
  if description = "" then 0
  else
    let d := lowerStr description
    let max_possible := (ai_keywords.map Prod.snd).sum
    let score := ai_keywords.foldl
      (fun acc kw => if inStr kw.1 d then acc + kw.2 else acc) 0
    min (score / max_possible) 1

/-- The unit captured by the budget amount regular expression. -/
inductive AmountUnit where
  | million
  | kilo
  | thousand
deriving DecidableEq

/-- Python's `\s` character class (ASCII part). -/
def isPySpace (c : Char) : Bool :=
  c = ' ' || c = '\t' || c = '\n' || c = '\r' || c = '\x0b' || c = '\x0c'

/-- The numeric value of a run of decimal digit characters. -/
def digitsVal (ds : List Char) : ℕ :=
  ds.foldl (fun n c => 10 * n + (c.toNat - 48)) 0

/-- The optional fractional group `(?:\.\d+)?` of the amount pattern:
its value and the remaining input (unchanged if the group does not match). -/
def fracPart (l : List Char) : ℚ × List Char :=
  match l with
  | c :: r =>
    if c = '.' then
      let fs := r.takeWhile Char.isDigit
      if fs.isEmpty then (0, l)
      else ((digitsVal fs : ℚ) / 10 ^ fs.length, r.dropWhile Char.isDigit)
    else (0, l)
  | [] => (0, l)

/-- The literal alternation `million|k|thousand` (tried in that order). -/
def matchUnit (l : List Char) : Option (AmountUnit × List Char) :=
  if "million".data.isPrefixOf l then some (.million, l.drop 7)
  else if "k".data.isPrefixOf l then some (.kilo, l.drop 1)
  else if "thousand".data.isPrefixOf l then some (.thousand, l.drop 8)
  else none

/-- The numeric value of the group `(\d+(?:\.\d+)?)` read at the front of
`r1` (integer digits, then the optional fraction). -/
def amountVal (r1 : List Char) : ℚ :=
  (digitsVal (r1.takeWhile Char.isDigit) : ℚ) + (fracPart (r1.dropWhile Char.isDigit)).1

/-- The input remaining after the numeric group read at the front of `r1`. -/
def amountRest (r1 : List Char) : List Char :=
  (fracPart (r1.dropWhile Char.isDigit)).2

/-- One anchored attempt of the pattern
`\$\s*(\d+(?:\.\d+)?)[\s-]*(million|k|thousand)`: the parsed amount, its
unit, and the input remaining after the match. -/
def matchAmount (l : List Char) : Option ((ℚ × AmountUnit) × List Char) :=
  match l with
  | c :: rest =>
    if c = '$' then
      if ((rest.dropWhile isPySpace).takeWhile Char.isDigit).isEmpty then none
      else
        match matchUnit ((amountRest (rest.dropWhile isPySpace)).dropWhile
            (fun c2 => isPySpace c2 || c2 = '-')) with
        | some ur => some ((amountVal (rest.dropWhile isPySpace), ur.1), ur.2)
        | none => none
    else none
  | [] => none

/-- Left-to-right non-overlapping scan of `re.findall`.  The fuel is the
input length; every match consumes at least one character, so fuel equal to
the initial length never runs out. -/
def findAmounts : ℕ → List Char → List (ℚ × AmountUnit)
  | 0, _ => []
  | _, [] => []
  | fuel + 1, c :: cs =>
    match matchAmount (c :: cs) with
    | some (m, rest) => m :: findAmounts fuel rest
    | none => findAmounts fuel cs

/-- `re.findall(amount_pattern, s)` with the amounts already parsed. -/
def reFindallAmounts (s : String) : List (ℚ × AmountUnit) :=
  findAmounts s.length s.data

/-- The per-match contribution of a budget amount. -/
def unitScore (m : ℚ × AmountUnit) : ℚ :=
  match m.2 with
  | .million => min (m.1 / 10) 1
  | _ => min (m.1 / 10000) 1

/-- LeadScorer._score_budget_potential. -/
def score_budget_potential (budget_info : String) : ℚ :=
  if budget_info = "" then 0
  else
    let b := lowerStr budget_info
    let max_possible := (budget_indicators.map Prod.snd).sum
    let s1 := (reFindallAmounts b).foldl (fun acc m => acc + unitScore m) 0
    let s2 := budget_indicators.foldl
      (fun acc kw => if inStr kw.1 b then acc + kw.2 else acc) s1
    min (s2 / max_possible) 1

/-- LeadScorer._score_tech_initiatives. -/
def score_tech_initiatives (initiatives : List String) : ℚ :=
  if initiatives = [] then 0
  else
    let ai_ready_count :=
      initiatives.countP (fun init => ai_keywords.any (fun kw => inStr kw.1 (lowerStr init)))
    min ((ai_ready_count : ℚ) / 5) 1

/-- LeadScorer._score_engagement_signals. -/
def score_engagement_signals (activities : List (Option ℤ)) : ℚ :=
  if activities = [] then 0
  else
    let score := activities.foldl
      (fun acc a =>
        match a with
        | some days_ago =>
          if days_ago ≤ 180 then acc + (1 - (days_ago : ℚ) / 180) else acc
        | none => acc) 0
    min (score / 3) 1

/-- LeadScorer._score_accessibility. -/
def score_accessibility (contact_info : ContactInfo) : ℚ :=
  (if contact_info.email ≠ "" then 0.4 else 0) +
  (if contact_info.phone ≠ "" then 0.3 else 0) +
  (if contact_info.title ≠ "" then 0.3 else 0)

/-- The `all_text` blob `_score_academic_partnerships` builds:
lowered description, lowered partnerships and lowered initiatives,
joined with single spaces. -/
def academic_all_text (lead : LeadData) : String :=
  String.intercalate " "
    (lowerStr lead.description ::
      (lead.partnerships.map lowerStr ++ lead.tech_initiatives.map lowerStr))

/-- LeadScorer._score_academic_partnerships (max_possible is the
hard-coded 4.0). -/
def score_academic_partnerships (lead : LeadData) : ℚ :=
  let all_text := academic_all_text lead
  let s1 := academic_indicators.foldl
    (fun acc kw => if inStr kw.1 all_text then acc + kw.2 else acc) 0
  let s2 := top_universities.foldl
    (fun acc u => if inStr u all_text then acc + 0.5 else acc) s1
  let s3 := special_universities.foldl
    (fun acc su =>
      if inStr su.1 all_text && su.2.2.any (fun k => inStr k all_text)
      then acc + su.2.1 else acc) s2
  let s4 :=
    if (lowerStr lead.description :: lead.partnerships).any
        (fun t => inStr "research" t && (inStr "ongoing" t || inStr "active" t))
    then s3 + 0.5 else s3
  min (s4 / 4) 1

/-- The `self.partnership_details` attribute the academic scorer sets when a
special university co-occurs with one of its relationship keywords (consumed
by the analysis of the same `score_lead` call). -/
def partnership_details (lead : LeadData) : Option String :=
  let all_text := academic_all_text lead
  special_universities.foldl
    (fun acc su =>
      if inStr su.1 all_text && su.2.2.any (fun k => inStr k all_text)
      then some su.1 else acc) none

/-- LeadScorer._calculate_factor_score. -/
def calculate_factor_score (lead : LeadData) (factor : String) : ℚ :=
  if factor = "ai_readiness" then score_ai_readiness lead.description
  else if factor = "academic_partnerships" then score_academic_partnerships lead
  else if factor = "budget_potential" then score_budget_potential lead.budget_info
  else if factor = "tech_initiatives" then score_tech_initiatives lead.tech_initiatives
  else if factor = "engagement_signals" then score_engagement_signals lead.recent_activities
  else if factor = "accessibility" then score_accessibility lead.contact_info
  else 0

/-- Round half to even (Python's `round` and `format` tie-breaking). -/
def roundHalfEven (q : ℚ) : ℤ :=
  if q - ⌊q⌋ < 1/2 then ⌊q⌋
  else if (1:ℚ)/2 < q - ⌊q⌋ then ⌊q⌋ + 1
  else if ⌊q⌋ % 2 = 0 then ⌊q⌋ else ⌊q⌋ + 1

/-- Python's `round(q, 2)`. -/
def pyRound2 (q : ℚ) : ℚ := (roundHalfEven (q * 100) : ℚ) / 100

/-- Python's `f"{q:.1f}"` for nonnegative `q`. -/
def fmt1 (q : ℚ) : String :=
  let n := roundHalfEven (q * 10)
  toString (n / 10) ++ "." ++ toString (n % 10)

/-- Python's `str.title()` (ASCII). -/
def pyTitleAux : Bool → List Char → List Char
  | _, [] => []
  | prevAlpha, c :: cs =>
    (if c.isAlpha then (if prevAlpha then c.toLower else c.toUpper) else c)
      :: pyTitleAux c.isAlpha cs

/-- Python's `str.title()` on a string. -/
def pyTitle (s : String) : String := ⟨pyTitleAux false s.data⟩

/-- `factor.replace('_', ' ')` as the analysis displays a factor. -/
def display_factor (f : String) : String := f.replace "_" " "

/-- The per-factor strong/weak notes of LeadScorer._generate_analysis.
`scores` holds the weighted contributions exactly as `score_lead` builds
them. -/
def factor_notes : List (String × ℚ) → List String
  | [] => []
  | (f, s) :: rest =>
    if 0.8 ≤ s then
      ("Strong " ++ display_factor f ++ ": " ++ fmt1 (s * 100) ++ "%") :: factor_notes rest
    else if s ≤ 0.3 then
      ("Weak " ++ display_factor f ++ ": " ++ fmt1 (s * 100) ++ "%") :: factor_notes rest
    else factor_notes rest

/-- The academic-partnership tail of LeadScorer._generate_analysis. -/
def academic_notes (scores : List (String × ℚ)) (detail : Option String) : List String :=
  match scores.lookup "academic_partnerships" with
  | none => []
  | some s =>
    (match detail with
     | some univ => ["Existing strong relationship with " ++ pyTitle univ ++ " detected"]
     | none => []) ++
    (if 0.8 ≤ s then ["Strong academic collaboration potential"]
     else if 0.5 ≤ s then ["Moderate academic engagement"]
     else if 0 < s then ["Limited academic partnerships - opportunity for growth"]
     else [])

/-- LeadScorer._generate_analysis. -/
def generate_analysis (scores : List (String × ℚ)) (detail : Option String) : List String :=
  factor_notes scores ++ academic_notes scores detail

/-- The dictionary LeadScorer.score_lead returns. -/
structure ScoreBreakdown where
  total_score : ℚ
  factor_scores : List (String × ℚ)
  analysis : List String
deriving DecidableEq

/-- LeadScorer.score_lead. -/
def score_lead (lead : LeadData) : ScoreBreakdown :=
  let scores := scoring_factors.map
    (fun fw => (fw.1, calculate_factor_score lead fw.1 * fw.2))
  let final_score := (scores.map Prod.snd).sum * 100
  { total_score := pyRound2 final_score
    factor_scores := scores.map (fun kv => (kv.1, pyRound2 (kv.2 * 100)))
    analysis := generate_analysis scores (partnership_details lead) }

/- ## Boundedness of the scorer (claim C1) -/

theorem foldl_step_nonneg {α : Type} (g : ℚ → α → ℚ) (l : List α) (init : ℚ)
    (h0 : 0 ≤ init) (hg : ∀ acc x, 0 ≤ acc → x ∈ l → 0 ≤ g acc x) :
    0 ≤ l.foldl g init := by
  induction l generalizing init with
  | nil => exact h0
  | cons a t ih =>
    exact ih (g init a) (hg init a h0 (List.mem_cons_self a t))
      (fun acc x ha hx => hg acc x ha (List.mem_cons_of_mem a hx))

theorem fold_add_if_nonneg {α : Type} (l : List α) (w : α → ℚ) (p : α → Bool)
    (init : ℚ) (h0 : 0 ≤ init) (hw : ∀ x ∈ l, 0 ≤ w x) :
    0 ≤ l.foldl (fun acc x => if p x then acc + w x else acc) init := by
  apply foldl_step_nonneg _ _ _ h0
  intro acc x ha hx
  by_cases hp : p x
  · simpa [hp] using add_nonneg ha (hw x hx)
  · simpa [hp] using ha

theorem min_div_one_bounds {x d : ℚ} (hx : 0 ≤ x) (hd : 0 < d) :
    0 ≤ min (x / d) 1 ∧ min (x / d) 1 ≤ 1 :=
  ⟨le_min (div_nonneg hx hd.le) (by norm_num), min_le_right _ _⟩

theorem score_ai_readiness_bounds (description : String) :
    0 ≤ score_ai_readiness description ∧ score_ai_readiness description ≤ 1 := by
  unfold score_ai_readiness
  split_ifs with h
  · norm_num
  · refine min_div_one_bounds ?_ (by with_unfolding_all decide)
    exact fold_add_if_nonneg ai_keywords Prod.snd _ 0 le_rfl
      (by intro x hx; revert x hx; with_unfolding_all decide)

theorem fracPart_nonneg (l : List Char) : 0 ≤ (fracPart l).1 := by
  cases l with
  | nil => simp [fracPart]
  | cons c r =>
    simp only [fracPart]
    split_ifs with h1 h2
    · norm_num
    · positivity
    · norm_num

theorem amountVal_nonneg (r1 : List Char) : 0 ≤ amountVal r1 :=
  add_nonneg (Nat.cast_nonneg _) (fracPart_nonneg _)

theorem matchAmount_amount_nonneg {l rest : List Char} {m : ℚ × AmountUnit}
    (h : matchAmount l = some (m, rest)) : 0 ≤ m.1 := by
  cases l with
  | nil => simp [matchAmount] at h
  | cons c cs =>
    simp only [matchAmount] at h
    split_ifs at h with h1 h2
    rcases hmu : matchUnit ((amountRest (cs.dropWhile isPySpace)).dropWhile
        (fun c2 => isPySpace c2 || c2 = '-')) with _ | ur
    · rw [hmu] at h; simp at h
    · rw [hmu] at h
      simp only [Option.some.injEq, Prod.mk.injEq] at h
      have : m = (amountVal (cs.dropWhile isPySpace), ur.1) := h.1.symm
      rw [this]
      exact amountVal_nonneg _

theorem findAmounts_amount_nonneg :
    ∀ (fuel : ℕ) (l : List Char), ∀ m ∈ findAmounts fuel l, 0 ≤ m.1 := by
  intro fuel
  induction fuel with
  | zero => intro l m hm; simp [findAmounts] at hm
  | succ n ih =>
    intro l m hm
    cases l with
    | nil => simp [findAmounts] at hm
    | cons c cs =>
      rw [findAmounts] at hm
      rcases hma : matchAmount (c :: cs) with _ | ⟨m0, rest⟩
      · rw [hma] at hm
        exact ih cs m hm
      · rw [hma] at hm
        rcases List.mem_cons.mp hm with h | h
        · rw [h]; exact matchAmount_amount_nonneg hma
        · exact ih rest m h

theorem unitScore_nonneg {m : ℚ × AmountUnit} (h : 0 ≤ m.1) : 0 ≤ unitScore m := by
  obtain ⟨a, u⟩ := m
  cases u <;>
    exact le_min (div_nonneg h (by norm_num)) (by norm_num)

theorem score_budget_potential_bounds (budget_info : String) :
    0 ≤ score_budget_potential budget_info ∧ score_budget_potential budget_info ≤ 1 := by
  unfold score_budget_potential
  split_ifs with h
  · norm_num
  · refine min_div_one_bounds ?_ (by with_unfolding_all decide)
    apply fold_add_if_nonneg budget_indicators Prod.snd _ _ ?_
      (by intro x hx; revert x hx; with_unfolding_all decide)
    apply foldl_step_nonneg _ _ _ le_rfl
    intro acc x ha hx
    exact add_nonneg ha (unitScore_nonneg
      (findAmounts_amount_nonneg _ _ x hx))

theorem score_tech_initiatives_bounds (initiatives : List String) :
    0 ≤ score_tech_initiatives initiatives ∧ score_tech_initiatives initiatives ≤ 1 := by
  unfold score_tech_initiatives
  split_ifs with h
  · norm_num
  · exact min_div_one_bounds (by positivity) (by norm_num)

theorem score_engagement_signals_bounds (activities : List (Option ℤ)) :
    0 ≤ score_engagement_signals activities ∧ score_engagement_signals activities ≤ 1 := by
  unfold score_engagement_signals
  split_ifs with h
  · norm_num
  · refine min_div_one_bounds ?_ (by norm_num)
    apply foldl_step_nonneg _ _ _ le_rfl
    intro acc x ha hx
    match x with
    | none => exact ha
    | some d =>
      dsimp only
      split_ifs with hd
      · have hdq : (d : ℚ) ≤ 180 := by exact_mod_cast hd
        have : 0 ≤ 1 - (d : ℚ) / 180 := by
          rw [sub_nonneg, div_le_one (by norm_num)]
          exact hdq
        linarith
      · exact ha

theorem score_accessibility_bounds (contact_info : ContactInfo) :
    0 ≤ score_accessibility contact_info ∧ score_accessibility contact_info ≤ 1 := by
  unfold score_accessibility
  split_ifs <;> norm_num

theorem score_academic_partnerships_bounds (lead : LeadData) :
    0 ≤ score_academic_partnerships lead ∧ score_academic_partnerships lead ≤ 1 := by
  unfold score_academic_partnerships
  refine min_div_one_bounds ?_ (by norm_num)
  have h1 : (0:ℚ) ≤ academic_indicators.foldl
      (fun acc kw => if inStr kw.1 (academic_all_text lead) then acc + kw.2 else acc) 0 :=
    fold_add_if_nonneg academic_indicators Prod.snd _ 0 le_rfl
      (by intro x hx; revert x hx; with_unfolding_all decide)
  have h2 : (0:ℚ) ≤ top_universities.foldl
      (fun acc u => if inStr u (academic_all_text lead) then acc + 0.5 else acc)
      (academic_indicators.foldl
        (fun acc kw => if inStr kw.1 (academic_all_text lead) then acc + kw.2 else acc) 0) :=
    fold_add_if_nonneg top_universities (fun _ => 0.5) _ _ h1 (by intro x hx; norm_num)
  have h3 : (0:ℚ) ≤ special_universities.foldl
      (fun acc su =>
        if inStr su.1 (academic_all_text lead) &&
            su.2.2.any (fun k => inStr k (academic_all_text lead))
        then acc + su.2.1 else acc)
      (top_universities.foldl
        (fun acc u => if inStr u (academic_all_text lead) then acc + 0.5 else acc)
        (academic_indicators.foldl
          (fun acc kw => if inStr kw.1 (academic_all_text lead) then acc + kw.2 else acc) 0)) :=
    fold_add_if_nonneg special_universities (fun su => su.2.1) _ _ h2
      (by intro x hx; revert x hx; with_unfolding_all decide)
  split_ifs with h4
  · linarith
  · exact h3

theorem calculate_factor_score_bounds (lead : LeadData) (factor : String) :
    0 ≤ calculate_factor_score lead factor ∧ calculate_factor_score lead factor ≤ 1 := by
  unfold calculate_factor_score
  split_ifs
  · exact score_ai_readiness_bounds _
  · exact score_academic_partnerships_bounds _
  · exact score_budget_potential_bounds _
  · exact score_tech_initiatives_bounds _
  · exact score_engagement_signals_bounds _
  · exact score_accessibility_bounds _
  · norm_num

theorem roundHalfEven_nonneg {q : ℚ} (h : 0 ≤ q) : 0 ≤ roundHalfEven q := by
  have hf : (0:ℤ) ≤ ⌊q⌋ := Int.floor_nonneg.mpr h
  unfold roundHalfEven
  split_ifs <;> omega

theorem roundHalfEven_le {q : ℚ} {n : ℤ} (h : q ≤ (n:ℚ)) : roundHalfEven q ≤ n := by
  have hfn : ⌊q⌋ ≤ n := by
    have := Int.floor_le_floor h
    simpa using this
  have hfq : (⌊q⌋:ℚ) ≤ q := Int.floor_le q
  have key : ¬ (q - ⌊q⌋ < 1/2) → ⌊q⌋ < n := by
    intro h1
    have h1' : (1:ℚ)/2 ≤ q - ⌊q⌋ := le_of_not_lt h1
    have : (⌊q⌋:ℚ) < (n:ℚ) := by linarith
    exact_mod_cast this
  unfold roundHalfEven
  split_ifs with h1 h2 h3
  · exact hfn
  · have := key h1; omega
  · exact hfn
  · have := key h1; omega

theorem pyRound2_bounds {q : ℚ} (h0 : 0 ≤ q) (h1 : q ≤ 100) :
    0 ≤ pyRound2 q ∧ pyRound2 q ≤ 100 := by
  unfold pyRound2
  have hr0 : 0 ≤ roundHalfEven (q * 100) := roundHalfEven_nonneg (by positivity)
  have hr1 : roundHalfEven (q * 100) ≤ 10000 :=
    roundHalfEven_le (show q * 100 ≤ (((10000:ℤ)):ℚ) by push_cast; linarith)
  constructor
  · exact div_nonneg (by exact_mod_cast hr0) (by norm_num)
  · rw [div_le_iff₀ (by norm_num)]
    calc ((roundHalfEven (q * 100) : ℤ) : ℚ) ≤ ((10000:ℤ):ℚ) := by exact_mod_cast hr1
    _ = 100 * 100 := by norm_num

theorem scoring_weight_bounds :
    ∀ fw ∈ scoring_factors, 0 ≤ fw.2 ∧ fw.2 ≤ 3/10 := by
  with_unfolding_all decide

theorem weighted_sum_bounds (lead : LeadData) :
    0 ≤ ((scoring_factors.map
        (fun fw => (fw.1, calculate_factor_score lead fw.1 * fw.2))).map Prod.snd).sum ∧
    ((scoring_factors.map
        (fun fw => (fw.1, calculate_factor_score lead fw.1 * fw.2))).map Prod.snd).sum ≤ 1 := by
  have h1 := calculate_factor_score_bounds lead "ai_readiness"
  have h2 := calculate_factor_score_bounds lead "academic_partnerships"
  have h3 := calculate_factor_score_bounds lead "budget_potential"
  have h4 := calculate_factor_score_bounds lead "tech_initiatives"
  have h5 := calculate_factor_score_bounds lead "engagement_signals"
  have h6 := calculate_factor_score_bounds lead "accessibility"
  simp only [scoring_factors, List.map_cons, List.map_nil, List.sum_cons, List.sum_nil]
  norm_num
  constructor <;>
    nlinarith [h1.1, h1.2, h2.1, h2.2, h3.1, h3.2, h4.1, h4.2, h5.1, h5.2, h6.1, h6.2]

/-- C1: for every input dictionary, `score_lead` returns a `total_score` in
[0, 100] and `factor_scores` values each in [0, 100]; the empty dictionary
scores exactly 0.0. -/
theorem score_lead_bounded :
    (∀ lead : LeadData,
      (0 ≤ (score_lead lead).total_score ∧ (score_lead lead).total_score ≤ 100) ∧
      ∀ kv ∈ (score_lead lead).factor_scores, 0 ≤ kv.2 ∧ kv.2 ≤ 100) ∧
    (score_lead ({} : LeadData)).total_score = 0 := by
  constructor
  · intro lead
    constructor
    · have hs := weighted_sum_bounds lead
      simp only [score_lead]
      exact pyRound2_bounds (by nlinarith [hs.1]) (by nlinarith [hs.2])
    · intro kv hkv
      simp only [score_lead, List.mem_map] at hkv
      obtain ⟨kv0, hkv0, rfl⟩ := hkv
      obtain ⟨fw, hfw, rfl⟩ := hkv0
      have hc := calculate_factor_score_bounds lead fw.1
      have hw := scoring_weight_bounds fw hfw
      have hv0 : 0 ≤ calculate_factor_score lead fw.1 * fw.2 :=
        mul_nonneg hc.1 hw.1
      have hv1 : calculate_factor_score lead fw.1 * fw.2 ≤ 1 := by nlinarith
      dsimp only
      exact pyRound2_bounds (by nlinarith) (by nlinarith)
  · with_unfolding_all decide

/- ## Analysis notes (claim C6) -/

theorem head_append_str (s t : String) (c : Char) (h : s.data.head? = some c) :
    (s ++ t).data.head? = some c := by
  rw [String.data_append]
  cases hs : s.data with
  | nil => rw [hs] at h; simp at h
  | cons x xs => rw [hs] at h; simp at h; simp [h]

theorem head_ne_not_prefix {a b : Char} {l₁ l₂ : List Char}
    (h1 : l₁.head? = some a) (h2 : l₂.head? = some b) (hne : a ≠ b) :
    ¬ (l₁ <+: l₂) := by
  rintro ⟨t, rfl⟩
  cases l₁ with
  | nil => simp at h1
  | cons x xs =>
    simp only [List.head?_cons, Option.some.injEq] at h1
    simp only [List.cons_append, List.head?_cons, Option.some.injEq] at h2
    exact hne (h1 ▸ h2 ▸ rfl)

theorem factor_notes_weak_mem (scores : List (String × ℚ)) (name : String) (v : ℚ)
    (hmem : (name, v) ∈ scores) (h8 : ¬ (0.8:ℚ) ≤ v) (h3 : v ≤ 0.3) :
    ("Weak " ++ display_factor name ++ ": " ++ fmt1 (v * 100) ++ "%") ∈ factor_notes scores := by
  induction scores with
  | nil => simp at hmem
  | cons fs rest ih =>
    obtain ⟨f, s⟩ := fs
    rcases List.mem_cons.mp hmem with h | h
    · simp only [Prod.mk.injEq] at h
      obtain ⟨rfl, rfl⟩ := h
      simp only [factor_notes]
      rw [if_neg h8, if_pos h3]
      exact List.mem_cons_self _ _
    · simp only [factor_notes]
      split_ifs with hs1 hs2
      · exact List.mem_cons_of_mem _ (ih h)
      · exact List.mem_cons_of_mem _ (ih h)
      · exact ih h

theorem factor_notes_head (scores : List (String × ℚ))
    (hall : ∀ kv ∈ scores, ¬ (0.8:ℚ) ≤ kv.2) :
    ∀ s ∈ factor_notes scores, s.data.head? = some 'W' := by
  induction scores with
  | nil => simp [factor_notes]
  | cons fs rest ih =>
    obtain ⟨f, sc⟩ := fs
    intro s hs
    simp only [factor_notes] at hs
    rw [if_neg (hall (f, sc) (List.mem_cons_self _ _))] at hs
    have htail : ∀ kv ∈ rest, ¬ (0.8:ℚ) ≤ kv.2 :=
      fun kv hkv => hall kv (List.mem_cons_of_mem _ hkv)
    by_cases h3 : sc ≤ 0.3
    · rw [if_pos h3] at hs
      rcases List.mem_cons.mp hs with h | h
      · rw [h]
        exact head_append_str _ _ _ (head_append_str _ _ _
          (head_append_str _ _ _ (head_append_str _ _ _ rfl)))
      · exact ih htail s h
    · rw [if_neg h3] at hs
      exact ih htail s hs

theorem academic_notes_heads (scores : List (String × ℚ)) (detail : Option String)
    (hv : ∀ v, scores.lookup "academic_partnerships" = some v → v < 1/2) :
    ∀ s ∈ academic_notes scores detail,
      s.data.head? = some 'E' ∨ s.data.head? = some 'L' := by
  intro s hs
  simp only [academic_notes] at hs
  cases hlook : scores.lookup "academic_partnerships" with
  | none => rw [hlook] at hs; simp at hs
  | some v =>
    rw [hlook] at hs
    dsimp only at hs
    have hv2 := hv v hlook
    rw [if_neg (by intro hc; rw [show (0.8:ℚ) = 4/5 by norm_num] at hc; linarith)] at hs
    rw [if_neg (by intro hc; rw [show (0.5:ℚ) = 1/2 by norm_num] at hc; linarith)] at hs
    rcases List.mem_append.mp hs with h | h
    · cases detail with
      | none => simp at h
      | some univ =>
        simp only [List.mem_singleton] at h
        rw [h]
        left
        exact head_append_str _ _ _ (head_append_str _ _ _ rfl)
    · by_cases h0 : (0:ℚ) < v
      · rw [if_pos h0] at h
        simp only [List.mem_singleton] at h
        rw [h]
        right
        rfl
      · rw [if_neg h0] at h
        simp at h

theorem scores_lookup_academic (lead : LeadData) :
    (scoring_factors.map
        (fun fw => (fw.1, calculate_factor_score lead fw.1 * fw.2))).lookup
      "academic_partnerships" =
      some (calculate_factor_score lead "academic_partnerships" * 0.15) := by
  rfl

theorem factor_scores_all_small (lead : LeadData) :
    ∀ kv ∈ scoring_factors.map
        (fun fw => (fw.1, calculate_factor_score lead fw.1 * fw.2)),
      ¬ (0.8:ℚ) ≤ kv.2 := by
  intro kv hkv
  obtain ⟨fw, hfw, rfl⟩ := List.mem_map.mp hkv
  have hc := calculate_factor_score_bounds lead fw.1
  have hw := scoring_weight_bounds fw hfw
  intro hge
  rw [show (0.8:ℚ) = 4/5 by norm_num] at hge
  dsimp only at hge
  nlinarith [hc.1, hc.2, hw.1, hw.2]

/-- C6 (amended): the analysis thresholds are applied to the weighted
contribution (raw value × factor weight), not to the raw [0,1] value; since
every weight is at most 0.30 no "Strong" note is ever produced, while any
factor whose raw value is ≤ 0.3 (hence whose weighted contribution is
≤ 0.09) does get its "Weak <factor>" note. -/
theorem score_lead_analysis_notes (lead : LeadData) (name : String) (w : ℚ)
    (hmem : (name, w) ∈ scoring_factors)
    (hraw : calculate_factor_score lead name ≤ 3/10) :
    (∃ rest, ("Weak " ++ display_factor name ++ ": " ++ rest) ∈ (score_lead lead).analysis) ∧
    (∀ s ∈ (score_lead lead).analysis, ¬ ("Strong".data <+: s.data)) := by
  have hc := calculate_factor_score_bounds lead name
  have hw := scoring_weight_bounds (name, w) hmem
  dsimp only at hw
  have hv3 : calculate_factor_score lead name * w ≤ 0.3 := by
    rw [show (0.3:ℚ) = 3/10 by norm_num]
    nlinarith [hc.1, hw.1, hw.2]
  have hv8 : ¬ (0.8:ℚ) ≤ calculate_factor_score lead name * w := by
    intro hx
    rw [show (0.8:ℚ) = 4/5 by norm_num] at hx
    nlinarith [hc.1, hw.1, hw.2]
  have hanalysis : (score_lead lead).analysis =
      factor_notes (scoring_factors.map
        (fun fw => (fw.1, calculate_factor_score lead fw.1 * fw.2))) ++
      academic_notes (scoring_factors.map
        (fun fw => (fw.1, calculate_factor_score lead fw.1 * fw.2)))
        (partnership_details lead) := rfl
  constructor
  · refine ⟨fmt1 (calculate_factor_score lead name * w * 100) ++ "%", ?_⟩
    rw [hanalysis]
    apply List.mem_append_left
    rw [← String.append_assoc]
    apply factor_notes_weak_mem _ name _ _ hv8 hv3
    exact List.mem_map.mpr ⟨(name, w), hmem, rfl⟩
  · intro s hs
    rw [hanalysis] at hs
    have hstrong : ("Strong".data).head? = some 'S' := rfl
    rcases List.mem_append.mp hs with h | h
    · exact head_ne_not_prefix hstrong
        (factor_notes_head _ (factor_scores_all_small lead) s h) (by decide)
    · have hv : ∀ v,
          (scoring_factors.map
            (fun fw => (fw.1, calculate_factor_score lead fw.1 * fw.2))).lookup
            "academic_partnerships" = some v → v < 1/2 := by
        intro v hvlook
        rw [scores_lookup_academic lead] at hvlook
        have hb := calculate_factor_score_bounds lead "academic_partnerships"
        rw [Option.some.injEq] at hvlook
        rw [← hvlook]
        nlinarith [hb.1, hb.2]
      rcases academic_notes_heads _ _ hv s h with he | hl
      · exact head_ne_not_prefix hstrong he (by decide)
      · exact head_ne_not_prefix hstrong hl (by decide)

/-- C6 witness: at the empty lead every raw factor value is 0 ≤ 0.3, and the
first analysis note is the ai_readiness weak note, which "Strong" does not
prefix. -/
theorem score_lead_analysis_notes_witness :
    ¬ ("Strong".data <+: ("Weak ai readiness: 0.0%" : String).data) := by
  have h := score_lead_analysis_notes ({} : LeadData) "ai_readiness" 0.30
    (by with_unfolding_all decide) (by with_unfolding_all decide)
  exact h.2 "Weak ai readiness: 0.0%" (by with_unfolding_all decide)

/-- The concrete lead whose description contains every ai_readiness keyword,
so the raw ai_readiness value is exactly 1. -/
def c6_lead : LeadData :=
  { description := "artificial intelligence machine learning ai transformation data science digital transformation automation analytics modernization innovation" }

/-- C6 counterexample: a lead whose raw ai_readiness value is 1 (≥ 0.8), yet
the analysis contains no "strong ai readiness" note at all — every emitted
note is a weak note (the thresholds are applied to the weighted
contributions, and 1 × 0.30 = 0.3 lands in the weak branch). -/
theorem strong_note_counterexample :
    calculate_factor_score c6_lead "ai_readiness" = 1 ∧
    (score_lead c6_lead).analysis =
      ["Weak ai readiness: 30.0%", "Weak academic partnerships: 0.0%",
       "Weak budget potential: 0.0%", "Weak tech initiatives: 0.0%",
       "Weak engagement signals: 0.0%", "Weak accessibility: 0.0%"] := by
  with_unfolding_all decide

/- ## Field validator (src/services/data_collector.py, _validate_office) -/

/-- The ValidationMessage dataclass. -/
structure ValidationMessage where
  message : String
  context : String
  impact : String
  suggestion : String
  priority : ℤ
deriving DecidableEq

/-- The ValidationResult dataclass (`suggested_fixes` is an
insertion-ordered dict, modelled as an association list). -/
structure ValidationResult where
  is_valid : Bool
  errors : List ValidationMessage
  warnings : List ValidationMessage
  confidence_score : ℚ
  suggested_fixes : List (String × String)
deriving DecidableEq

/-- Python dict assignment `d[k] = v`: update in place if the key exists,
append otherwise. -/
def dictInsert (d : List (String × String)) (k v : String) : List (String × String) :=
  if d.any (fun kv => kv.1 == k) then d.map (fun kv => if kv.1 == k then (k, v) else kv)
  else d ++ [(k, v)]

/-- The abbreviation → expansion table of _validate_office. -/
def abbrev_map : List (String × String) :=
  [("St", "Street"), ("Ave", "Avenue"), ("Rd", "Road"), ("Blvd", "Boulevard"),
   ("Ln", "Lane"), ("Dr", "Drive"), ("Ct", "Court"), ("Pl", "Place"),
   ("Sq", "Square"), ("Ste", "Suite"), ("Rm", "Room"), ("Fl", "Floor"),
   ("Bldg", "Building"), ("Dept", "Department")]

/-- The error appended for an empty office string. -/
def missing_office_error : ValidationMessage :=
  { message := "Office location is missing", context := "No office location provided",
    impact := "Cannot determine physical location",
    suggestion := "Add the office location", priority := 2 }

/-- The warning for an office string shorter than 5 characters. -/
def too_short_warning (office : String) : ValidationMessage :=
  { message := "Office location seems too short"
    context := "Location '" ++ office ++ "' is only " ++ toString office.length ++ " characters"
    impact := "May be incomplete", suggestion := "Provide full office location"
    priority := 3 }

/-- The warning for an office string longer than 200 characters. -/
def too_long_warning (office : String) : ValidationMessage :=
  { message := "Office location unusually long"
    context := "Location '" ++ office ++ "' is " ++ toString office.length ++ " characters"
    impact := "May contain extra information", suggestion := "Consider shortening or splitting"
    priority := 3 }

/-- The warning for an office string whose first character is not uppercase. -/
def capitalization_warning (office : String) : ValidationMessage :=
  { message := "Location should be capitalized"
    context := "Location '" ++ office ++ "' starts with lowercase"
    impact := "Non-standard formatting", suggestion := "Capitalize first letter"
    priority := 3 }

/-- The warning for an abbreviation found without its expansion. -/
def abbrev_warning (ab : String × String) : ValidationMessage :=
  { message := "Found abbreviation '" ++ ab.1 ++ "'"
    context := "Consider using full form '" ++ ab.2 ++ "'"
    impact := "May be unclear to some readers"
    suggestion := "Replace with '" ++ ab.2 ++ "'", priority := 3 }

/-- `office[0]` of a non-empty office string. -/
def firstChar (s : String) : Char := s.data.headD ' '

/-- `office[0].upper() + office[1:]`. -/
def capitalize_fix (office : String) : String :=
  ⟨(firstChar office).toUpper :: office.data.tail⟩

/-- The length warnings of _validate_office (`< 5`, `elif > 200`). -/
def length_warnings (office : String) : List ValidationMessage :=
  if office.length < 5 then [too_short_warning office]
  else if office.length > 200 then [too_long_warning office]
  else []

/-- The warning list and suggested-fix dict a non-empty office string
accumulates: length checks, then the capitalization check, then the
abbreviation loop (each fix keyed by the whole original string, the Python
`replace` substituting every occurrence in the original). -/
def office_checks (office : String) : List ValidationMessage × List (String × String) :=
  let capWarn := !(firstChar office).isUpper
  let w2 := length_warnings office ++
    (if capWarn then [capitalization_warning office] else [])
  let f2 := if capWarn then dictInsert [] office (capitalize_fix office) else []
  abbrev_map.foldl
    (fun st ab =>
      if inStr ab.1 office && !(inStr ab.2 office)
      then (st.1 ++ [abbrev_warning ab], dictInsert st.2 office (office.replace ab.1 ab.2))
      else st)
    (w2, f2)

/-- DataCollector._validate_office. -/
def validate_office (office : String) : ValidationResult :=
  if office = "" then
    { is_valid := false, errors := [missing_office_error], warnings := []
      confidence_score := 0, suggested_fixes := [] }
  else
    { is_valid := (([] : List ValidationMessage).length == 0)
      errors := []
      warnings := (office_checks office).1
      confidence_score := max 0 (min 1
        (1 - 0.3 * ((([] : List ValidationMessage).length : ℚ))
           - 0.1 * (((office_checks office).1.length : ℚ))))
      suggested_fixes := (office_checks office).2 }

/-- C3: for every string, _validate_office yields a confidence in [0, 1],
`is_valid` iff zero errors, the clamped linear confidence formula on the
non-empty path, and the empty string short-circuits with one error,
confidence 0, no warnings and no fixes. -/
theorem validate_office_spec :
    ∀ office : String,
      (0 ≤ (validate_office office).confidence_score ∧
        (validate_office office).confidence_score ≤ 1) ∧
      ((validate_office office).is_valid = true ↔
        (validate_office office).errors.length = 0) ∧
      (office = "" →
        (validate_office office).errors = [missing_office_error] ∧
        (validate_office office).confidence_score = 0 ∧
        (validate_office office).is_valid = false ∧
        (validate_office office).warnings = [] ∧
        (validate_office office).suggested_fixes = []) ∧
      (office ≠ "" →
        (validate_office office).confidence_score =
          max 0 (min 1
            (1 - 3/10 * ((validate_office office).errors.length : ℚ)
               - 1/10 * ((validate_office office).warnings.length : ℚ)))) := by
  intro office
  by_cases h : office = ""
  · refine ⟨?_, ?_, fun _ => ?_, fun hne => absurd h hne⟩ <;>
      simp [validate_office, if_pos h]
  · refine ⟨?_, ?_, fun he => absurd he h, fun _ => ?_⟩
    · constructor
      · simp only [validate_office, if_neg h]
        exact le_max_left _ _
      · simp only [validate_office, if_neg h]
        exact max_le (by norm_num) (min_le_left _ _)
    · simp [validate_office, if_neg h]
    · simp only [validate_office, if_neg h]
      norm_num

/-- C7 counterexample: on `"123 main st"` the only emitted warning is the
capitalization one — the abbreviation table is matched case-sensitively, so
the lowercase `"st"` never triggers the `St` entry — and the suggested fix
maps the original string to itself (uppercasing the digit `'1'` changes
nothing), not to a capitalized, expanded value. -/
theorem office_example_counterexample :
    (validate_office "123 main st").warnings.map (fun m => m.message) =
      ["Location should be capitalized"] ∧
    (validate_office "123 main st").suggested_fixes =
      [("123 main st", "123 main st")] := by
  with_unfolding_all decide

/-- C7 (amended): `"123 main st"` gets exactly one warning (the
capitalization warning — `'1'` is not uppercase), no abbreviation warning
(case-sensitive match misses the lowercase `"st"`), a suggested fix mapping
the original string to itself, `is_valid = True`, and confidence 0.9,
strictly between 0 and 1. -/
theorem office_example_amended :
    (validate_office "123 main st").is_valid = true ∧
    (validate_office "123 main st").errors = [] ∧
    (validate_office "123 main st").warnings.map (fun m => m.message) =
      ["Location should be capitalized"] ∧
    (validate_office "123 main st").suggested_fixes =
      [("123 main st", "123 main st")] ∧
    (validate_office "123 main st").confidence_score = 9/10 ∧
    0 < (validate_office "123 main st").confidence_score ∧
    (validate_office "123 main st").confidence_score < 1 := by
  with_unfolding_all decide

/- ## Deduplicator (src/services/data_collector.py, _deduplicate_opportunities) -/

/-- One opportunity record as the extractors build it (a Python dict; the
nested `contact_info` dict is flattened into the `contact_*` fields, and
`posted_date` is `none` when the key is absent). -/
structure Opportunity where
  id : String := ""
  name : String := ""
  title : String := ""
  agency : String := ""
  email : String := ""
  phone : String := ""
  office : String := ""
  dateAdded : String := ""
  source : String := ""
  contact_url : String := ""
  contact_email : String := ""
  contact_phone : String := ""
  description : String := ""
  posted_date : Option String := none
deriving DecidableEq

/-- The dedup identity `(opp.get('title', ''), opp.get('agency', ''))`. -/
def oppKey (o : Opportunity) : String × String := (o.title, o.agency)

/-- The sort key `x.get('posted_date', '') or ''`. -/
def sortKey (o : Opportunity) : String := o.posted_date.getD ""

/-- The comparison of `sorted(..., reverse=True)` on the sort key: `a` may
come before `b` iff `b`'s key is at most `a`'s (descending). -/
def dedupLe (a b : Opportunity) : Bool := decide (sortKey b ≤ sortKey a)

/-- The `seen`-set filter loop of _deduplicate_opportunities: keep the first
record of each unseen `(title, agency)` key, in input order. -/
def dedupFilter (seen : List (String × String)) : List Opportunity → List Opportunity
  | [] => []
  | o :: rest =>
    if oppKey o ∈ seen then dedupFilter seen rest
    else o :: dedupFilter (oppKey o :: seen) rest

/-- DataCollector._deduplicate_opportunities: the seen-set filter followed by
Python's stable descending sort on `posted_date`. -/
def deduplicate_opportunities (opportunities : List Opportunity) : List Opportunity :=
  (dedupFilter [] opportunities).mergeSort dedupLe

theorem empty_string_le (s : String) : "" ≤ s :=
  String.le_iff_toList_le.mpr List.nil_le

theorem dedupLe_trans :
    ∀ a b c : Opportunity, dedupLe a b = true → dedupLe b c = true → dedupLe a c = true := by
  intro a b c h1 h2
  simp only [dedupLe, decide_eq_true_eq] at h1 h2 ⊢
  exact le_trans h2 h1

theorem dedupLe_total : ∀ a b : Opportunity, (dedupLe a b || dedupLe b a) = true := by
  intro a b
  simp only [dedupLe, Bool.or_eq_true, decide_eq_true_eq]
  exact le_total _ _

theorem dedupFilter_sublist :
    ∀ (xs : List Opportunity) (seen : List (String × String)),
      List.Sublist (dedupFilter seen xs) xs := by
  intro xs
  induction xs with
  | nil => intro seen; simp [dedupFilter]
  | cons o rest ih =>
    intro seen
    by_cases hmem : oppKey o ∈ seen
    · simp only [dedupFilter, if_pos hmem]
      exact (ih seen).trans (List.sublist_cons_self o rest)
    · simp only [dedupFilter, if_neg hmem]
      exact List.Sublist.cons₂ o (ih _)

theorem dedupFilter_keys :
    ∀ (xs : List Opportunity) (seen : List (String × String)),
      ((dedupFilter seen xs).map oppKey).Nodup ∧
      ∀ k ∈ (dedupFilter seen xs).map oppKey, k ∉ seen := by
  intro xs
  induction xs with
  | nil => intro seen; simp [dedupFilter]
  | cons o rest ih =>
    intro seen
    by_cases hmem : oppKey o ∈ seen
    · simpa [dedupFilter, hmem] using ih seen
    · have ihx := ih (oppKey o :: seen)
      simp only [dedupFilter, if_neg hmem, List.map_cons, List.nodup_cons]
      refine ⟨⟨?_, ihx.1⟩, ?_⟩
      · intro hin
        exact (ihx.2 _ hin) (List.mem_cons_self _ _)
      · intro k hk
        rcases List.mem_cons.mp hk with rfl | hk2
        · exact hmem
        · intro hkseen
          exact (ihx.2 _ hk2) (List.mem_cons_of_mem _ hkseen)

theorem dedupFilter_mem_keys :
    ∀ (xs : List Opportunity) (seen : List (String × String)) (k : String × String),
      k ∈ (dedupFilter seen xs).map oppKey ↔ k ∈ xs.map oppKey ∧ k ∉ seen := by
  intro xs
  induction xs with
  | nil => intro seen k; simp [dedupFilter]
  | cons o rest ih =>
    intro seen k
    by_cases hmem : oppKey o ∈ seen
    · simp only [dedupFilter, if_pos hmem, List.map_cons, List.mem_cons]
      rw [ih seen k]
      constructor
      · rintro ⟨hk, hns⟩
        exact ⟨Or.inr hk, hns⟩
      · rintro ⟨hor, hns⟩
        rcases hor with rfl | hk
        · exact absurd hmem hns
        · exact ⟨hk, hns⟩
    · simp only [dedupFilter, if_neg hmem, List.map_cons, List.mem_cons]
      rw [ih (oppKey o :: seen) k]
      constructor
      · rintro (rfl | ⟨hk, hns⟩)
        · exact ⟨Or.inl rfl, hmem⟩
        · refine ⟨Or.inr hk, fun hs => hns (List.mem_cons_of_mem _ hs)⟩
      · rintro ⟨rfl | hk, hns⟩
        · exact Or.inl rfl
        · by_cases hko : k = oppKey o
          · exact Or.inl hko
          · refine Or.inr ⟨hk, ?_⟩
            intro hks
            rcases List.mem_cons.mp hks with h | h
            · exact hko h
            · exact hns h

theorem dedupFilter_first_seen :
    ∀ (xs : List Opportunity) (seen : List (String × String)),
      ∀ r ∈ dedupFilter seen xs,
        xs.find? (fun x => decide (oppKey x = oppKey r)) = some r := by
  intro xs
  induction xs with
  | nil => intro seen r hr; simp [dedupFilter] at hr
  | cons o rest ih =>
    intro seen r hr
    by_cases hmem : oppKey o ∈ seen
    · simp only [dedupFilter, if_pos hmem] at hr
      have hkr : oppKey r ∉ seen :=
        (dedupFilter_keys rest seen).2 _ (List.mem_map_of_mem _ hr)
      rw [List.find?_cons_of_neg]
      · exact ih seen r hr
      · simp only [decide_eq_true_eq]
        intro he
        exact hkr (he ▸ hmem)
    · simp only [dedupFilter, if_neg hmem] at hr
      rcases List.mem_cons.mp hr with rfl | hr2
      · rw [List.find?_cons_of_pos]
        simp
      · have hkr : oppKey r ∉ (oppKey o :: seen) :=
          (dedupFilter_keys rest _).2 _ (List.mem_map_of_mem _ hr2)
        rw [List.find?_cons_of_neg]
        · exact ih _ r hr2
        · simp only [decide_eq_true_eq]
          intro he
          exact hkr (he ▸ List.mem_cons_self _ _)

theorem dedupFilter_id :
    ∀ (ys : List Opportunity) (seen : List (String × String)),
      (∀ k ∈ ys.map oppKey, k ∉ seen) → (ys.map oppKey).Nodup →
      dedupFilter seen ys = ys := by
  intro ys
  induction ys with
  | nil => intro seen _ _; rfl
  | cons o rest ih =>
    intro seen hns hnd
    simp only [List.map_cons, List.nodup_cons] at hnd
    have hmem : oppKey o ∉ seen := hns _ (by simp)
    simp only [dedupFilter, if_neg hmem]
    congr 1
    apply ih
    · intro k hk
      simp only [List.mem_cons]
      rintro (rfl | hk2)
      · exact hnd.1 hk
      · exact hns k (List.mem_cons_of_mem _ hk) hk2
    · exact hnd.2

/-- C2: the deduplicator keeps exactly one record per distinct
`(title, agency)` key (the first-seen one), and orders the result by
`posted_date` descending, a missing date sorting as the lowest key `""`. -/
theorem deduplicate_spec :
    ∀ xs : List Opportunity,
      ((deduplicate_opportunities xs).map oppKey).Nodup ∧
      (∀ k, k ∈ (deduplicate_opportunities xs).map oppKey ↔ k ∈ xs.map oppKey) ∧
      (∀ r ∈ deduplicate_opportunities xs,
        xs.find? (fun x => decide (oppKey x = oppKey r)) = some r) ∧
      (deduplicate_opportunities xs).Pairwise (fun a b => sortKey b ≤ sortKey a) ∧
      (∀ r : Opportunity, r.posted_date = none → ∀ r2 : Opportunity, sortKey r ≤ sortKey r2) := by
  intro xs
  have hperm : (deduplicate_opportunities xs).Perm (dedupFilter [] xs) :=
    List.mergeSort_perm (dedupFilter [] xs) dedupLe
  refine ⟨?_, ?_, ?_, ?_, ?_⟩
  · exact ((hperm.map oppKey).nodup_iff).mpr (dedupFilter_keys xs []).1
  · intro k
    rw [(hperm.map oppKey).mem_iff, dedupFilter_mem_keys xs [] k]
    simp
  · intro r hr
    exact dedupFilter_first_seen xs [] r (hperm.mem_iff.mp hr)
  · have hs := List.sorted_mergeSort dedupLe_trans dedupLe_total (dedupFilter [] xs)
    exact hs.imp (fun h => by simpa [dedupLe, decide_eq_true_eq] using h)
  · intro r hr r2
    rw [show sortKey r = "" by simp [sortKey, hr]]
    exact empty_string_le _

/-- C8: the deduplicator is idempotent — applied to its own output it
returns that output unchanged, in the same order. -/
theorem deduplicate_idempotent :
    ∀ xs : List Opportunity,
      deduplicate_opportunities (deduplicate_opportunities xs) = deduplicate_opportunities xs := by
  intro xs
  have hperm : (deduplicate_opportunities xs).Perm (dedupFilter [] xs) :=
    List.mergeSort_perm (dedupFilter [] xs) dedupLe
  have hnd : ((deduplicate_opportunities xs).map oppKey).Nodup :=
    ((hperm.map oppKey).nodup_iff).mpr (dedupFilter_keys xs []).1
  have hid : dedupFilter [] (deduplicate_opportunities xs) = deduplicate_opportunities xs :=
    dedupFilter_id _ [] (by simp) hnd
  have hsorted : List.Pairwise (fun a b => dedupLe a b = true) (deduplicate_opportunities xs) :=
    List.sorted_mergeSort dedupLe_trans dedupLe_total _
  calc deduplicate_opportunities (deduplicate_opportunities xs)
      = (dedupFilter [] (deduplicate_opportunities xs)).mergeSort dedupLe := rfl
    _ = (deduplicate_opportunities xs).mergeSort dedupLe := by rw [hid]
    _ = deduplicate_opportunities xs := List.mergeSort_of_sorted hsorted

/- ## Content extractors (src/services/data_collector.py) -/

/-- The relevance vocabulary `DataCollector.ai_keywords`. -/
def dc_ai_keywords : List String :=
  ["artificial intelligence", "machine learning", "deep learning",
   "neural network", "AI", "ML", "data science", "computer vision",
   "natural language processing", "NLP", "automation", "robotics",
   "algorithm", "analytics", "big data", "cloud", "digital", "innovation",
   "research", "technology", "transformation", "modernization", "cyber",
   "security", "IT", "software", "computing", "emerging tech",
   "emerging technology"]

/-- `any(keyword.lower() in text.lower() for keyword in self.ai_keywords)`. -/
def dc_text_ai_related (t : String) : Bool :=
  dc_ai_keywords.any (fun kw => inStr (lowerStr kw) (lowerStr t))

/-- One anchor of the USA.gov agency index as BeautifulSoup presents it:
its class list, its text, the absolute URL `urljoin` resolves for it, and
the description text the sibling/ancestor walk of lines 226-251 settles on
(empty when the walk finds nothing). -/
structure LinkItem where
  classes : List String := []
  text : String := ""
  url : String := ""
  description : String := ""
deriving DecidableEq

/-- The navigation/utility class denylist of _parse_agency_index. -/
def nav_class_tokens : List String := ["nav", "menu", "utility", "footer"]

/-- The per-link loop of _parse_agency_index; `count` is `len(agencies)` so
far (the positional ids). -/
def parse_agency_index_go (now : String) : ℕ → List LinkItem → List Opportunity
  | _, [] => []
  | count, link :: rest =>
    if nav_class_tokens.any (fun x => link.classes.contains x) then
      parse_agency_index_go now count rest
    else
      if link.text.trim = "" ∨ link.text.trim.length < 3 then
        parse_agency_index_go now count rest
      else
        if dc_text_ai_related link.description || dc_text_ai_related link.text.trim then
          { id := toString (count + 1), name := "Technology Leadership"
            title := "AI Program Lead", agency := link.text.trim
            email := "", phone := "", office := "Technology and Innovation"
            dateAdded := now, source := "usa.gov"
            contact_url := link.url, contact_email := "", contact_phone := ""
            description := link.description, posted_date := none }
            :: parse_agency_index_go now (count + 1) rest
        else
          parse_agency_index_go now count rest

/-- DataCollector._parse_agency_index over the anchors of all candidate
sections in document order (`now` is `datetime.now().isoformat()`). -/
def parse_agency_index (now : String) (links : List LinkItem) : List Opportunity :=
  parse_agency_index_go now 0 links

/-- One decoded Challenge.gov JSON object (each field is `none` when the
key is absent, matching `challenge.get(...)` defaults). -/
structure Challenge where
  title : Option String := none
  agency : Option String := none
  description : Option String := none
  summary : Option String := none
  url : Option String := none
  slug : Option String := none
  email : Option String := none
  phone : Option String := none
  cid : Option String := none
  tags : Option (List String) := none
  categories : Option (List String) := none
deriving DecidableEq

/-- `DataCollector` defines `_is_ai_related` only as a function local to
`_calculate_contact_scores` (line 1140), never as a class attribute, so
every `self._is_ai_related(...)` call raises AttributeError. -/
def hasMethod_is_ai_related : Bool := false

/-- The record template of lines 343-359 of _parse_challenge_gov_content:
what one AI-related JSON challenge would be turned into. -/
def challenge_record (now : String) (idx : ℕ) (c : Challenge) : Opportunity :=
  { id := match c.cid with | some i => i | none => toString idx
    name := "Challenge Manager"
    agency := (c.agency.getD "Challenge.gov").trim
    title := "Challenge Lead"
    email := c.email.getD "", phone := c.phone.getD ""
    office := "Challenge.gov", dateAdded := now, source := "challenge.gov"
    contact_url :=
      (if c.url.getD "" = "" then
        (match c.slug with
         | some s => if s = "" then "" else "https://www.challenge.gov/challenge/" ++ s
         | none => "")
       else c.url.getD "")
    contact_email := c.email.getD "", contact_phone := c.phone.getD ""
    description :=
      (c.title.getD "").trim ++ " - " ++
        (if (c.description.getD "").trim = "" then (c.summary.getD "").trim
         else (c.description.getD "").trim)
    posted_date := none }

/-- One iteration of the per-challenge loop of _parse_challenge_gov_content:
an empty title is skipped at line 311; otherwise `self._is_ai_related(title)`
at line 329 raises AttributeError (see `hasMethod_is_ai_related`), the
handler at line 361 logs it and continues, so the item is skipped and the
record template is never reached. -/
def parse_challenge_iter (_now : String) (_idx : ℕ) (c : Challenge) : Option Opportunity :=
  if (c.title.getD "").trim = "" then none
  else none

/-- The `enumerate` loop over decoded challenges. -/
def parse_challenge_go (now : String) : ℕ → List Challenge → List Opportunity
  | _, [] => []
  | idx, c :: rest =>
    match parse_challenge_iter now idx c with
    | some o => o :: parse_challenge_go now (idx + 1) rest
    | none => parse_challenge_go now (idx + 1) rest

/-- The records the JSON branch of _parse_challenge_gov_content emits for a
decoded challenge list. -/
def parse_challenge_records (now : String) (cs : List Challenge) : List Opportunity :=
  parse_challenge_go now 0 cs

/-- One card of the Challenge.gov HTML fallback (_parse_challenge_gov_html):
`title` is the text of the heading element when one is found. -/
structure ChallengeCard where
  title : Option String := none
  agency : String := "Challenge.gov"
  description : String := ""
  url : String := ""
deriving DecidableEq

/-- One iteration of the per-card loop of _parse_challenge_gov_html: no
heading → skipped (line 394); empty stripped title → skipped (line 398);
otherwise `self._is_ai_related(title)` at line 446 raises AttributeError,
caught at line 467, and the card is skipped. -/
def parse_challenge_html_iter (_idx : ℕ) (card : ChallengeCard) : Option Opportunity :=
  match card.title with
  | none => none
  | some t => if t.trim = "" then none else none

/-- The `enumerate` loop over candidate cards. -/
def parse_challenge_html_go : ℕ → List ChallengeCard → List Opportunity
  | _, [] => []
  | idx, card :: rest =>
    match parse_challenge_html_iter idx card with
    | some o => o :: parse_challenge_html_go (idx + 1) rest
    | none => parse_challenge_html_go (idx + 1) rest

/-- DataCollector._parse_challenge_gov_html over its candidate cards. -/
def parse_challenge_gov_html (cards : List ChallengeCard) : List Opportunity :=
  parse_challenge_html_go 0 cards

/-- The Python errors the challenge extractor can raise. -/
inductive PyError where
  | nameError (n : String)
  | attributeError (n : String)
deriving DecidableEq

/-- The import list of data_collector.py (lines 1-11): os, re, logging,
asyncio, bs4, datetime, typing, aiohttp, dataclasses, enum, urllib.parse —
`json` is never imported. -/
def json_module_imported : Bool := false

/-- DataCollector._parse_challenge_gov_content.  `decodeJson` stands for the
`json` module's decoder (some = decoded list, none = JSONDecodeError) and
`cardsOf` for the BeautifulSoup card extraction of the HTML fallback.  The
name `json` is resolved at line 304 before anything else happens; it is not
bound in the module (see `json_module_imported`), so NameError is raised,
and the `except json.JSONDecodeError` clause at line 365 re-raises NameError
while evaluating its exception class, so the fallback never runs. -/
def parse_challenge_gov_content (decodeJson : String → Option (List Challenge))
    (cardsOf : String → List ChallengeCard) (now content : String) :
    Except PyError (List Opportunity) :=
  if json_module_imported then
    match decodeJson content with
    | some challenges => Except.ok (parse_challenge_records now challenges)
    | none =>
      if json_module_imported then Except.ok (parse_challenge_gov_html (cardsOf content))
      else Except.error (PyError.nameError "json")
  else Except.error (PyError.nameError "json")

/-- One article of the Digital.gov topics page as BeautifulSoup presents it:
`title` is the heading text when a heading is found, `author`/`agency` the
byline/agency texts when found. -/
structure Article where
  title : Option String := none
  description : String := ""
  url : String := ""
  author : Option String := none
  agency : Option String := none
deriving DecidableEq

/-- One iteration of the per-article loop of _parse_digital_gov_content
(everything on the AI topics page counts as AI-related). -/
def parse_digital_iter (now : String) (idx : ℕ) (a : Article) : Option Opportunity :=
  match a.title with
  | none => none
  | some t =>
    some { id := toString idx
           name := (a.author.map String.trim).getD "Digital.gov Team"
           agency := (a.agency.map String.trim).getD "Digital.gov"
           title := "Digital.gov Author"
           email := "", phone := "", office := "Digital.gov"
           dateAdded := now, source := "digital.gov"
           contact_url := a.url, contact_email := "", contact_phone := ""
           description := t.trim, posted_date := none }

/-- The `enumerate` loop over articles. -/
def parse_digital_go (now : String) : ℕ → List Article → List Opportunity
  | _, [] => []
  | idx, a :: rest =>
    match parse_digital_iter now idx a with
    | some o => o :: parse_digital_go now (idx + 1) rest
    | none => parse_digital_go now (idx + 1) rest

/-- DataCollector._parse_digital_gov_content. -/
def parse_digital_gov_content (now : String) (articles : List Article) : List Opportunity :=
  parse_digital_go now 0 articles

/- ## Source fetcher and scan (src/services/data_collector.py, scan_opportunities) -/

/-- One configured source: its name and, per retry attempt number, the
outcome of fetching and parsing it (`some records` on success, `none` for a
non-200 status, transport error or parse exception). -/
structure SourceConfig where
  name : String
  fetch : ℕ → Option (List Opportunity)

/-- The `for attempt in range(3)` retry loop, started at `attempt` with the
given number of attempts remaining: the number of attempts made, the list of
backoff sleeps performed (each `1` time unit, only between attempts — the
last failure re-raises without sleeping), and the records on success. -/
def run_attempts (fetch : ℕ → Option (List Opportunity)) (attempt : ℕ) :
    ℕ → ℕ × List ℕ × Option (List Opportunity)
  | 0 => (0, [], none)
  | remaining + 1 =>
    match fetch attempt with
    | some recs => (1, [], some recs)
    | none =>
      if remaining = 0 then (1, [], none)
      else
        let r := run_attempts fetch (attempt + 1) remaining
        (r.1 + 1, 1 :: r.2.1, r.2.2)

/-- The retry loop of scan_opportunities for one source (3 attempts). -/
def run_source (fetch : ℕ → Option (List Opportunity)) :
    ℕ × List ℕ × Option (List Opportunity) :=
  run_attempts fetch 0 3

/-- The `opportunities` accumulator of scan_opportunities: sources in
configured order, a failed source contributing nothing (its exception is
caught and the loop continues). -/
def collect_opportunities (sources : List SourceConfig) : List Opportunity :=
  sources.foldl
    (fun acc s =>
      match (run_source s.fetch).2.2 with
      | some recs => acc ++ recs
      | none => acc) []

/-- DataCollector.scan_opportunities: collect per-source records and
deduplicate. -/
def scan_opportunities (sources : List SourceConfig) : List Opportunity :=
  deduplicate_opportunities (collect_opportunities sources)

/- ## Extractor and scan properties (claims C4, C5, C9, C10) -/

theorem parse_agency_go_shape :
    ∀ (links : List LinkItem) (now : String) (count : ℕ),
      ∀ r ∈ parse_agency_index_go now count links,
        r.title = "AI Program Lead" ∧ r.source = "usa.gov" ∧ r.posted_date = none := by
  intro links
  induction links with
  | nil => intro now count r hr; simp [parse_agency_index_go] at hr
  | cons link rest ih =>
    intro now count r hr
    simp only [parse_agency_index_go] at hr
    split_ifs at hr with h1 h2 h3
    · exact ih now count r hr
    · exact ih now count r hr
    · rcases List.mem_cons.mp hr with rfl | hr2
      · exact ⟨rfl, rfl, rfl⟩
      · exact ih now (count + 1) r hr2
    · exact ih now count r hr

theorem parse_challenge_go_nil :
    ∀ (cs : List Challenge) (now : String) (idx : ℕ),
      parse_challenge_go now idx cs = [] := by
  intro cs
  induction cs with
  | nil => intro now idx; rfl
  | cons c rest ih =>
    intro now idx
    simp only [parse_challenge_go]
    have hnone : parse_challenge_iter now idx c = none := by
      unfold parse_challenge_iter
      split_ifs <;> rfl
    rw [hnone]
    exact ih now (idx + 1)

theorem parse_challenge_html_go_nil :
    ∀ (cards : List ChallengeCard) (idx : ℕ),
      parse_challenge_html_go idx cards = [] := by
  intro cards
  induction cards with
  | nil => intro idx; rfl
  | cons card rest ih =>
    intro idx
    simp only [parse_challenge_html_go]
    have hnone : parse_challenge_html_iter idx card = none := by
      cases ht : card.title with
      | none => simp [parse_challenge_html_iter, ht]
      | some t =>
        simp only [parse_challenge_html_iter, ht]
        split_ifs <;> rfl
    rw [hnone]
    exact ih (idx + 1)

theorem parse_digital_iter_shape (now : String) (idx : ℕ) (a : Article) (o : Opportunity)
    (h : parse_digital_iter now idx a = some o) :
    o.title = "Digital.gov Author" ∧ o.source = "digital.gov" ∧ o.posted_date = none := by
  cases ht : a.title with
  | none => simp [parse_digital_iter, ht] at h
  | some t =>
    simp only [parse_digital_iter, ht, Option.some.injEq] at h
    rw [← h]
    exact ⟨rfl, rfl, rfl⟩

theorem parse_digital_go_shape :
    ∀ (arts : List Article) (now : String) (idx : ℕ),
      ∀ r ∈ parse_digital_go now idx arts,
        r.title = "Digital.gov Author" ∧ r.source = "digital.gov" ∧ r.posted_date = none := by
  intro arts
  induction arts with
  | nil => intro now idx r hr; simp [parse_digital_go] at hr
  | cons a rest ih =>
    intro now idx r hr
    simp only [parse_digital_go] at hr
    rcases hi : parse_digital_iter now idx a with _ | o
    · rw [hi] at hr
      exact ih now (idx + 1) r hr
    · rw [hi] at hr
      rcases List.mem_cons.mp hr with rfl | hr2
      · exact parse_digital_iter_shape now idx a r hi
      · exact ih now (idx + 1) r hr2

theorem no_posted_sort_id (xs : List Opportunity) (h : ∀ r ∈ xs, r.posted_date = none) :
    deduplicate_opportunities xs = dedupFilter [] xs := by
  have hsub := dedupFilter_sublist xs []
  have hall : ∀ r ∈ dedupFilter [] xs, sortKey r = "" := by
    intro r hr
    have hp := h r (hsub.subset hr)
    simp [sortKey, hp]
  apply List.mergeSort_of_sorted
  apply List.pairwise_of_forall_mem_list
  intro a ha b hb
  simp only [dedupLe, decide_eq_true_eq]
  rw [hall a ha, hall b hb]

/-- C10: no extractor ever sets `posted_date` (each sets only `dateAdded`),
so on extractor output the deduplicator's descending-date sort compares
all-equal empty keys and, being stable, never reorders: the result is
exactly the first-seen filter, a sublist of the input in input order. -/
theorem extractors_no_posted_date :
    (∀ now links, ∀ r ∈ parse_agency_index now links, r.posted_date = none) ∧
    (∀ now cs, ∀ r ∈ parse_challenge_records now cs, r.posted_date = none) ∧
    (∀ now arts, ∀ r ∈ parse_digital_gov_content now arts, r.posted_date = none) ∧
    (∀ xs : List Opportunity, (∀ r ∈ xs, r.posted_date = none) →
      deduplicate_opportunities xs = dedupFilter [] xs ∧
      List.Sublist (dedupFilter [] xs) xs) := by
  refine ⟨?_, ?_, ?_, ?_⟩
  · intro now links r hr
    exact (parse_agency_go_shape links now 0 r hr).2.2
  · intro now cs r hr
    rw [show parse_challenge_records now cs = [] from parse_challenge_go_nil cs now 0] at hr
    simp at hr
  · intro now arts r hr
    exact (parse_digital_go_shape arts now 0 r hr).2.2
  · intro xs h
    exact ⟨no_posted_sort_id xs h, dedupFilter_sublist xs []⟩

/-- C10 witness: a concrete two-record extractor-shaped input (both dateless)
passes through the deduplicator in first-seen input order. -/
theorem extractors_no_posted_date_witness :
    deduplicate_opportunities
        [{ title := "AI Program Lead", agency := "B" }, { title := "AI Program Lead", agency := "A" }] =
      dedupFilter [] [{ title := "AI Program Lead", agency := "B" }, { title := "AI Program Lead", agency := "A" }] :=
  (extractors_no_posted_date.2.2.2
    [{ title := "AI Program Lead", agency := "B" }, { title := "AI Program Lead", agency := "A" }]
    (by intro r hr; rcases List.mem_cons.mp hr with rfl | hr2
        · rfl
        · rcases List.mem_cons.mp hr2 with rfl | h3
          · rfl
          · simp at h3)).1

/-- The source-constant titles of the three extractors. -/
def source_title_table : List (String × String) :=
  [("usa.gov", "AI Program Lead"), ("challenge.gov", "Challenge Lead"),
   ("digital.gov", "Digital.gov Author")]

theorem source_title_functional :
    ∀ s t1 t2 : String,
      (s, t1) ∈ source_title_table → (s, t2) ∈ source_title_table → t1 = t2 := by
  intro s t1 t2 h1 h2
  simp only [source_title_table, List.mem_cons, List.not_mem_nil, or_false,
    Prod.mk.injEq] at h1 h2
  rcases h1 with ⟨rfl, rfl⟩ | ⟨rfl, rfl⟩ | ⟨rfl, rfl⟩ <;>
    rcases h2 with ⟨hs, rfl⟩ | ⟨hs, rfl⟩ | ⟨hs, rfl⟩ <;>
      first
        | rfl
        | exact absurd hs (by decide)

/-- C9: every record an extractor emits carries its source's constant title
from the fixed three-element table (the challenge extractor in fact emits
nothing, since its AI-relatedness call raises; the record template it would
emit carries "Challenge Lead"); consequently the deduplicated output never
holds two records of the same source and the same agency, and each survivor
is the first record of its key in the input. -/
theorem extractor_titles_and_collapse :
    (∀ now links, ∀ r ∈ parse_agency_index now links,
      (r.source, r.title) ∈ source_title_table) ∧
    (∀ now idx c, ((challenge_record now idx c).source,
      (challenge_record now idx c).title) ∈ source_title_table) ∧
    (∀ now cs, parse_challenge_records now cs = []) ∧
    (∀ now arts, ∀ r ∈ parse_digital_gov_content now arts,
      (r.source, r.title) ∈ source_title_table) ∧
    (∀ xs : List Opportunity,
      (∀ r ∈ xs, (r.source, r.title) ∈ source_title_table) →
      ((deduplicate_opportunities xs).Pairwise
        (fun a b => a.source = b.source → a.agency ≠ b.agency) ∧
       (∀ r ∈ deduplicate_opportunities xs,
         xs.find? (fun x => decide (oppKey x = oppKey r)) = some r))) := by
  refine ⟨?_, ?_, ?_, ?_, ?_⟩
  · intro now links r hr
    have h := parse_agency_go_shape links now 0 r hr
    rw [h.1, h.2.1]
    simp [source_title_table]
  · intro now idx c
    simp [challenge_record, source_title_table]
  · intro now cs
    exact parse_challenge_go_nil cs now 0
  · intro now arts r hr
    have h := parse_digital_go_shape arts now 0 r hr
    rw [h.1, h.2.1]
    simp [source_title_table]
  · intro xs htable
    have hperm : (deduplicate_opportunities xs).Perm (dedupFilter [] xs) :=
      List.mergeSort_perm (dedupFilter [] xs) dedupLe
    have hmemxs : ∀ r ∈ deduplicate_opportunities xs, r ∈ xs := by
      intro r hr
      exact (dedupFilter_sublist xs []).subset (hperm.mem_iff.mp hr)
    constructor
    · have hnd : ((deduplicate_opportunities xs).map oppKey).Nodup :=
        ((hperm.map oppKey).nodup_iff).mpr (dedupFilter_keys xs []).1
      have hpw : (deduplicate_opportunities xs).Pairwise
          (fun a b => oppKey a ≠ oppKey b) := List.pairwise_map.mp hnd
      refine hpw.imp_of_mem ?_
      intro a b ha hb hk hsrc hag
      apply hk
      have hta := htable a (hmemxs a ha)
      have htb := htable b (hmemxs b hb)
      rw [hsrc] at hta
      have := source_title_functional b.source a.title b.title hta htb
      simp only [oppKey, Prod.mk.injEq]
      exact ⟨this, hag⟩
    · intro r hr
      exact dedupFilter_first_seen xs [] r (hperm.mem_iff.mp hr)

/-- C5 (code bug): for every payload — in particular any payload on which
JSON decoding would fail — _parse_challenge_gov_content raises
NameError('json') instead of falling back to the markup parse: the `json`
module is never imported, so `json.loads` raises NameError and the
`except json.JSONDecodeError` clause raises it again while evaluating its
exception class.  The fallback itself, were it reached, would also return no
records: its per-card AI-relatedness check calls the nonexistent method
`_is_ai_related` and every card is skipped. -/
theorem challenge_gov_json_fallback_bug :
    (∀ (decodeJson : String → Option (List Challenge))
        (cardsOf : String → List ChallengeCard) (now content : String),
      parse_challenge_gov_content decodeJson cardsOf now content =
        Except.error (PyError.nameError "json")) ∧
    (∀ cards : List ChallengeCard, parse_challenge_gov_html cards = []) := by
  constructor
  · intro decodeJson cardsOf now content
    rfl
  · intro cards
    exact parse_challenge_html_go_nil cards 0

/-- C4: a source whose fetch always fails is attempted exactly 3 times with
a single one-unit wait between consecutive attempts (two waits in all), is
then excluded, and the scan result is exactly what it is without that
source: the other sources' records are unaffected. -/
theorem failing_source_retries (pre post : List SourceConfig) (bad : SourceConfig)
    (hfail : ∀ k, bad.fetch k = none) :
    (run_source bad.fetch).1 = 3 ∧
    (run_source bad.fetch).2.1 = [1, 1] ∧
    (run_source bad.fetch).2.2 = none ∧
    scan_opportunities (pre ++ bad :: post) = scan_opportunities (pre ++ post) := by
  have hf : bad.fetch = fun _ => none := funext hfail
  have hrs : run_source bad.fetch = (3, [1, 1], none) := by
    rw [hf]
    rfl
  refine ⟨by rw [hrs], by rw [hrs], by rw [hrs], ?_⟩
  unfold scan_opportunities
  congr 1
  unfold collect_opportunities
  simp only [List.foldl_append, List.foldl_cons, hrs]

/-- C4 witness: the retry count at a concretely always-failing source. -/
theorem failing_source_retries_witness :
    (run_source (fun _ => (none : Option (List Opportunity)))).1 = 3 :=
  (failing_source_retries [] [] ⟨"challenge.gov", fun _ => none⟩ (fun _ => rfl)).1

end LeadGen
